import Mathlib

/-!
Verification development for the Mattermost mobile slash-command parsing
engine (`app_command_parser.ts`).  The TypeScript `ParsedCommand` state
machine and the `AppCommandParser` orchestrator are shallowly embedded as
executable Lean functions; the `while` loops of the source become
fuel-indexed iterations of explicit step functions, and the external
collaborators (redux store selectors, network calls, localisation) become
explicit oracle parameters.  Error messages are modelled by the source's
`defaultMessage` strings with the named template values substituted.
-/

namespace AppCmd

/-- The `ParseState` enum of the tokenizer (source `ParseState` keyMirror). -/
inductive ParseState where
  | Start
  | Command
  | EndCommand
  | CommandSeparator
  | StartParameter
  | ParameterSeparator
  | Flag1
  | Flag
  | FlagValueSeparator
  | StartValue
  | NonspaceValue
  | QuotedValue
  | TickValue
  | EndValue
  | EndQuotedValue
  | EndTickedValue
  | Error
deriving DecidableEq, Repr

/-- Display name of a state, used in the `unexpected_state` message. -/
def ParseState.name : ParseState → String
  | .Start => "Start"
  | .Command => "Command"
  | .EndCommand => "EndCommand"
  | .CommandSeparator => "CommandSeparator"
  | .StartParameter => "StartParameter"
  | .ParameterSeparator => "ParameterSeparator"
  | .Flag1 => "Flag1"
  | .Flag => "Flag"
  | .FlagValueSeparator => "FlagValueSeparator"
  | .StartValue => "StartValue"
  | .NonspaceValue => "NonspaceValue"
  | .QuotedValue => "QuotedValue"
  | .TickValue => "TickValue"
  | .EndValue => "EndValue"
  | .EndQuotedValue => "EndQuotedValue"
  | .EndTickedValue => "EndTickedValue"
  | .Error => "Error"

/-- The `AppFieldTypes` constants. -/
inductive FieldType where
  | text
  | bool
  | user
  | channel
  | staticSelect
  | dynamicSelect
  | markdown
deriving DecidableEq, Repr

/-- An `AppSelectOption` (label and value, optional icon). -/
structure AppSelectOption where
  label : String
  value : String
  icon_data : Option String := none
deriving DecidableEq, Repr

/-- A value recorded in `parsed.values`.  During tokenizing only raw strings
(`str`) are stored; `expandOptions` and default resolution replace them with
select-option shaped objects (`sel label value`). -/
inductive FieldValue where
  | str (s : String)
  | sel (label : String) (value : FieldValue)
deriving DecidableEq, Repr

/-- JS truthiness of a possibly-absent field value: absent and the empty
string are falsy, objects are truthy. -/
def truthyVal : Option FieldValue → Bool
  | none => false
  | some (.str "") => false
  | some (.str _) => true
  | some (.sel _ _) => true

/-- An `AppCall` target (opaque invocation descriptor). -/
structure AppCall where
  path : String
deriving DecidableEq, Repr

/-- An `AppField` of a form. -/
structure AppField where
  name : String
  type : FieldType
  label : Option String := none
  position : Option Int := none
  is_required : Bool := false
  value : Option FieldValue := none
  readonly : Bool := false
  options : Option (List AppSelectOption) := none
  description : Option String := none
  hint : Option String := none
deriving DecidableEq, Repr

/-- An `AppForm`: ordered fields and an optional submit call. -/
structure AppForm where
  fields : Option (List AppField) := none
  call : Option AppCall := none
deriving DecidableEq, Repr

/-- An `AppBinding`: a node in the command tree.  `bindings` are the child
sub-commands; the type is recursive, so it is an inductive with explicit
projections below. -/
inductive AppBinding where
  | mk (label : String) (bindings : Option (List AppBinding))
       (form : Option AppForm) (call : Option AppCall) (app_id : String)
       (description : Option String) (hint : Option String) (icon : Option String)

def AppBinding.label : AppBinding → String
  | .mk l _ _ _ _ _ _ _ => l

def AppBinding.bindings : AppBinding → Option (List AppBinding)
  | .mk _ bs _ _ _ _ _ _ => bs

def AppBinding.form : AppBinding → Option AppForm
  | .mk _ _ f _ _ _ _ _ => f

def AppBinding.call : AppBinding → Option AppCall
  | .mk _ _ _ c _ _ _ _ => c

def AppBinding.app_id : AppBinding → String
  | .mk _ _ _ _ a _ _ _ => a

def AppBinding.description : AppBinding → Option String
  | .mk _ _ _ _ _ d _ _ => d

def AppBinding.hint : AppBinding → Option String
  | .mk _ _ _ _ _ _ h _ => h

def AppBinding.icon : AppBinding → Option String
  | .mk _ _ _ _ _ _ _ i => i

/-- The value map of a parse: field name to recorded value (JS object). -/
abbrev Values := List (String × FieldValue)

/-- JS `obj[k] = v`: replace an existing entry or append a new one. -/
def setValue (vs : Values) (k : String) (v : FieldValue) : Values :=
  if vs.any (fun p => p.1 = k) then
    vs.map (fun p => if p.1 = k then (k, v) else p)
  else
    vs ++ [(k, v)]

/-- JS `toLowerCase()` (modelled on the character list; ASCII case folding). -/
def jsToLower (s : String) : String := ⟨s.data.map Char.toLower⟩

/-- JS `s.startsWith(pre)`. -/
def jsStartsWith (s pre : String) : Bool := pre.data.isPrefixOf s.data

/-- JS `s.endsWith(suf)`. -/
def jsEndsWith (s suf : String) : Bool := suf.data.isSuffixOf s.data

/-- JS `s.substr(n)`. -/
def jsSubstrFrom (s : String) (n : Nat) : String := ⟨s.data.drop n⟩

/-- A JS whitespace character (the cases relevant to this input space). -/
def jsIsSpace (c : Char) : Bool := c = ' ' ∨ c = '\t' ∨ c = '\n' ∨ c = '\r'

/-- JS `s.trim()`. -/
def jsTrim (s : String) : String :=
  ⟨((s.data.dropWhile jsIsSpace).reverse.dropWhile jsIsSpace).reverse⟩

/-- JS `s1 || s2` for strings: the empty string is falsy. -/
def jsOrStr (s1 s2 : String) : String :=
  if s1 = "" then s2 else s1

/-- JS `o1 || o2` for optionals whose payloads are objects. -/
def jsOrOpt {α : Type} (o1 o2 : Option α) : Option α :=
  match o1 with
  | some x => some x
  | none => o2

/-- JS `o || s` where `o` is an optional string and `""` is falsy. -/
def jsOrOptStr (o : Option String) (s : String) : String :=
  match o with
  | some t => if t = "" then s else t
  | none => s

/-! ### Error messages (the `defaultMessage` strings of the source, with
named values substituted). -/

def noBindingsMsg : String := "No command bindings."
def noSlashMsg : String := "Command must start with a `/`."
def unexpectedStateMsg (s : ParseState) : String :=
  "Unreachable: Unexpected state in matchBinding: `" ++ s.name ++ "`."
def noMatchMsg (command : List Char) : String :=
  "`" ++ String.mk command ++ "`: No matching command found in this workspace."
def noArgumentMsg : String := "Unable to identify argument."
def unexpectedFlagMsg (flagName : String) : String :=
  "Command does not accept flag `" ++ flagName ++ "`."
def multipleEqualMsg : String := "Multiple `=` signs are not allowed."
def unexpectedWhitespaceMsg : String := "Unreachable: Unexpected whitespace."
def missingQuoteMsg : String := "Matching double quote expected before end of input."
def missingTickMsg : String := "Matching tick quote expected before end of input."
def emptyValueMsg : String := "empty values are not allowed"
def missingFieldValueMsg : String := "Field value is missing."

/-! ### The `ParsedCommand` tokenizer state -/

/-- The mutable cursor state of one parse invocation (source class
`ParsedCommand`).  `command` is the raw input; the `i` index reads it one
character at a time. -/
structure ParsedCommand where
  command : List Char
  state : ParseState := .Start
  i : Nat := 0
  incomplete : String := ""
  incompleteStart : Nat := 0
  binding : Option AppBinding := none
  form : Option AppForm := none
  field : Option AppField := none
  position : Nat := 0
  values : Values := []
  location : String := ""
  error : String := ""

/-- A fresh `ParsedCommand` over an input string (the constructor). -/
def mkParsed (command : String) : ParsedCommand :=
  { command := command.data }

/-- Source `this.command[this.i]`, with `none` standing for the JS empty string
read past the end of input. -/
def charAt (cmd : List Char) (i : Nat) : Option Char :=
  cmd[i]?

/-- Source `asError`: record a message and move to the terminal `Error` state. -/
def ParsedCommand.asError (p : ParsedCommand) (message : String) : ParsedCommand :=
  { p with state := .Error, error := message }

/-! ### Phase A: `matchBinding` -/

/-- Result of fetching a form for a binding (`{form?, error?}`); the whole
result may be absent (JS `undefined`). -/
structure FormResult where
  form : Option AppForm := none
  error : Option String := none
deriving Repr

/-- One iteration of the `while (!done)` loop of `matchBinding`.  The loop
locals are the candidate binding list `bs` (variable `bindings`) and the
`done` flag, modelled by the `done` constructor; `ret` is an early `return`
out of the whole function. -/
inductive MatchStep where
  | ret (p : ParsedCommand)
  | done (p : ParsedCommand) (bs : List AppBinding)
  | cont (p : ParsedCommand) (bs : List AppBinding)

def matchBindingStep (autocompleteMode : Bool) (p : ParsedCommand)
    (bs : List AppBinding) : MatchStep :=
  let c := charAt p.command p.i
  match p.state with
  | .Start =>
    if c ≠ some '/' then
      .ret (p.asError noSlashMsg)
    else
      .cont { p with i := p.i + 1, incomplete := "", incompleteStart := p.i + 1,
                     state := .Command } bs
  | .Command =>
    match c with
    | none =>
      if autocompleteMode then
        -- finish in the Command state, `incomplete` holds the query string
        .done p bs
      else
        .cont { p with state := .EndCommand } bs
    | some ' ' | some '\t' => .cont { p with state := .EndCommand } bs
    | some ch => .cont { p with incomplete := p.incomplete.push ch, i := p.i + 1 } bs
  | .EndCommand =>
    match bs.find? (fun b => jsToLower b.label == jsToLower p.incomplete) with
    | none =>
      -- gone as far as we could; this token does not match a sub-command,
      -- stop with the state of the last matching binding
      .done p bs
    | some binding =>
      .cont { p with binding := some binding,
                     location := p.location ++ "/" ++ binding.label,
                     state := .CommandSeparator } (binding.bindings.getD [])
  | .CommandSeparator =>
    -- `done` is set when the input is exhausted, but the switch still runs
    -- its default branch first
    match c with
    | some ' ' | some '\t' => .cont { p with i := p.i + 1 } bs
    | none => .done { p with incomplete := "", incompleteStart := p.i,
                             state := .Command } bs
    | some _ => .cont { p with incomplete := "", incompleteStart := p.i,
                               state := .Command } bs
  | s => .ret (p.asError (unexpectedStateMsg s))

/-- Outcome of running the `matchBinding` loop to completion. -/
inductive LoopOut where
  | ret (p : ParsedCommand)
  | done (p : ParsedCommand) (bs : List AppBinding)

def matchBindingLoop (autocompleteMode : Bool) :
    Nat → ParsedCommand → List AppBinding → LoopOut
  | 0, p, bs => .done p bs
  | fuel + 1, p, bs =>
    match matchBindingStep autocompleteMode p bs with
    | .ret q => .ret q
    | .done q bs' => .done q bs'
    | .cont q bs' => matchBindingLoop autocompleteMode fuel q bs'

/-- Fuel that dominates the loop's iteration count: each consumed character
costs at most four iterations, plus a bounded tail at end of input. -/
def matchBindingFuel (p : ParsedCommand) : Nat :=
  4 * p.command.length + 8

/-- The code after the loop: report `no_match` if no binding was ever
matched, otherwise resolve the form (inline, or through the forms cache
`getFormFn`, propagating a fetch error). -/
def matchBindingFinish (getFormFn : String → AppBinding → Option FormResult)
    (p : ParsedCommand) : ParsedCommand :=
  match p.binding with
  | none => p.asError (noMatchMsg p.command)
  | some binding =>
    match binding.form with
    | some f => { p with form := some f }
    | none =>
      match getFormFn p.location binding with
      | some fetched =>
        match fetched.error with
        | some e => p.asError e
        | none => { p with form := fetched.form }
      | none => { p with form := none }

/-- Source `matchBinding(commandBindings, autocompleteMode)` in full. -/
def matchBindingRun (getFormFn : String → AppBinding → Option FormResult)
    (commandBindings : List AppBinding) (autocompleteMode : Bool)
    (p : ParsedCommand) : ParsedCommand :=
  if commandBindings.isEmpty then
    p.asError noBindingsMsg
  else
    match matchBindingLoop autocompleteMode (matchBindingFuel p) p commandBindings with
    | .ret q => q
    | .done q _ => matchBindingFinish getFormFn q

/-! ### Phase B: `parseForm` -/

/-- One iteration of the `while (true)` loop of `parseForm`.  The loop
locals `flagEqualsUsed` and `escaped` are threaded through `cont`; `ret` is
a `return` out of the function. -/
inductive FormStep where
  | ret (p : ParsedCommand)
  | cont (p : ParsedCommand) (flagEqualsUsed : Bool) (escaped : Bool)

def parseFormStep (fields : List AppField) (autocompleteMode : Bool)
    (p : ParsedCommand) (flagEqualsUsed escaped : Bool) : FormStep :=
  let c := charAt p.command p.i
  match p.state with
  | .StartParameter =>
    match c with
    | none => .ret p
    | some '-' =>
      -- named parameter (flag); Flag1 consumes the optional second '-'
      .cont { p with state := .Flag1, i := p.i + 1 } flagEqualsUsed escaped
    | some _ =>
      -- positional parameter
      let pos := p.position + 1
      match fields.find? (fun f => f.position == some (pos : Int)) with
      | none => .ret ({ p with position := pos }.asError noArgumentMsg)
      | some field =>
        .cont { p with position := pos, field := some field,
                       state := .StartValue } flagEqualsUsed escaped
  | .ParameterSeparator =>
    match c with
    | none => .ret { p with incompleteStart := p.i, state := .StartParameter }
    | some ' ' | some '\t' =>
      .cont { p with incompleteStart := p.i, i := p.i + 1 } flagEqualsUsed escaped
    | some _ =>
      .cont { p with incompleteStart := p.i, state := .StartParameter }
        flagEqualsUsed escaped
  | .Flag1 =>
    -- consume the optional second '-'
    let p := if c = some '-' then { p with i := p.i + 1 } else p
    .cont { p with state := .Flag, incomplete := "", incompleteStart := p.i }
      false escaped
  | .Flag =>
    if c = none ∧ autocompleteMode then
      .ret p
    else
      match c with
      | none | some ' ' | some '\t' | some '=' =>
        match fields.find? (fun f =>
            (f.label.map jsToLower) == some (jsToLower p.incomplete)) with
        | none => .ret (p.asError (unexpectedFlagMsg p.incomplete))
        | some field =>
          .cont { p with state := .FlagValueSeparator, field := some field,
                         incomplete := "" } flagEqualsUsed escaped
      | some ch =>
        .cont { p with incomplete := p.incomplete.push ch, i := p.i + 1 }
          flagEqualsUsed escaped
  | .FlagValueSeparator =>
    match c with
    | none =>
      if autocompleteMode then
        .ret { p with incompleteStart := p.i }
      else
        .cont { p with incompleteStart := p.i, state := .StartValue }
          flagEqualsUsed escaped
    | some ' ' | some '\t' =>
      .cont { p with incompleteStart := p.i, i := p.i + 1 } flagEqualsUsed escaped
    | some '=' =>
      if flagEqualsUsed then
        .ret ({ p with incompleteStart := p.i }.asError multipleEqualMsg)
      else
        .cont { p with incompleteStart := p.i, i := p.i + 1 } true escaped
    | some _ =>
      .cont { p with incompleteStart := p.i, state := .StartValue }
        flagEqualsUsed escaped
  | .StartValue =>
    match c with
    | some '"' =>
      .cont { p with incomplete := "", incompleteStart := p.i,
                     state := .QuotedValue, i := p.i + 1 } flagEqualsUsed escaped
    | some '`' =>
      .cont { p with incomplete := "", incompleteStart := p.i,
                     state := .TickValue, i := p.i + 1 } flagEqualsUsed escaped
    | some ' ' | some '\t' =>
      .ret ({ p with incomplete := "", incompleteStart := p.i }.asError
        unexpectedWhitespaceMsg)
    | _ =>
      .cont { p with incomplete := "", incompleteStart := p.i,
                     state := .NonspaceValue } flagEqualsUsed escaped
  | .NonspaceValue =>
    match c with
    | none | some ' ' | some '\t' =>
      .cont { p with state := .EndValue } flagEqualsUsed escaped
    | some ch =>
      .cont { p with incomplete := p.incomplete.push ch, i := p.i + 1 }
        flagEqualsUsed escaped
  | .QuotedValue =>
    match c with
    | none =>
      if ¬autocompleteMode then .ret (p.asError missingQuoteMsg) else .ret p
    | some '"' =>
      if p.incompleteStart + 1 = p.i then
        .ret (p.asError emptyValueMsg)
      else
        .cont { p with i := p.i + 1, state := .EndQuotedValue } flagEqualsUsed escaped
    | some '\\' => .cont { p with i := p.i + 1 } flagEqualsUsed true
    | some ch =>
      .cont { p with incomplete := p.incomplete.push ch, i := p.i + 1 }
        flagEqualsUsed false
  | .TickValue =>
    match c with
    | none =>
      if ¬autocompleteMode then .ret (p.asError missingTickMsg) else .ret p
    | some '`' =>
      if p.incompleteStart + 1 = p.i then
        .ret (p.asError emptyValueMsg)
      else
        .cont { p with i := p.i + 1, state := .EndTickedValue } flagEqualsUsed escaped
    | some ch =>
      .cont { p with incomplete := p.incomplete.push ch, i := p.i + 1 }
        flagEqualsUsed escaped
  | .EndTickedValue | .EndQuotedValue | .EndValue =>
    match p.field with
    | none => .ret (p.asError missingFieldValueMsg)
    | some field =>
      -- special handling for optional BOOL values ('--boolflag true' vs
      -- '--boolflag next-positional' vs '--boolflag --next-flag...')
      if field.type = .bool ∧
          ((autocompleteMode ∧ (jsStartsWith "true" p.incomplete) = false ∧
              (jsStartsWith "false" p.incomplete) = false) ∨
           (¬autocompleteMode ∧ p.incomplete ≠ "true" ∧ p.incomplete ≠ "false")) then
        -- reset back to where the value started, treat as a new parameter
        .cont { p with i := p.incompleteStart,
                       values := setValue p.values field.name (.str "true"),
                       state := .StartParameter } flagEqualsUsed escaped
      else
        if autocompleteMode ∧ c = none then
          .ret p
        else
          let p' := { p with values := setValue p.values field.name (.str p.incomplete),
                             incomplete := "", incompleteStart := p.i }
          if c = none then
            .ret p'
          else
            .cont { p' with state := .ParameterSeparator } flagEqualsUsed escaped
  | _ =>
    -- the source switch has no case for the matchBinding states; they are
    -- unreachable from parseForm's entry (the loop would spin unchanged)
    .cont p flagEqualsUsed escaped

def parseFormLoop (fields : List AppField) (autocompleteMode : Bool) :
    Nat → ParsedCommand → Bool → Bool → ParsedCommand
  | 0, p, _, _ => p
  | fuel + 1, p, flagEqualsUsed, escaped =>
    match parseFormStep fields autocompleteMode p flagEqualsUsed escaped with
    | .ret q => q
    | .cont q fu es => parseFormLoop fields autocompleteMode fuel q fu es

/-- Fuel for the `parseForm` loop: boolean backtracking can rescan a token
once per positional slot, so the bound is quadratic in the worst case. -/
def parseFormFuel (p : ParsedCommand) (fields : List AppField) : Nat :=
  (p.command.length + 2) * (fields.length + 4) * 8 + 32

/-- Source `parseForm(autocompleteMode)`: bail out on a previous error or a missing
form, filter out markdown and readonly fields, rewind to the incomplete
token's start and run the value-binding loop. -/
def parseFormRun (autocompleteMode : Bool) (p : ParsedCommand) : ParsedCommand :=
  if p.state = .Error ∨ p.form.isNone then
    p
  else
    let fields := (match p.form with
      | some form => form.fields.getD []
      | none => [])
    let fields := fields.filter (fun f => f.type ≠ .markdown ∧ ¬f.readonly)
    let p := { p with state := .StartParameter, i := p.incompleteStart }
    parseFormLoop fields autocompleteMode (parseFormFuel p fields) p false false

/-! ### Orchestrator data (`AppCommandParser`) -/

/-- A user entity from the store (only the projections the code reads). -/
structure AppUser where
  id : String
  username : String
deriving DecidableEq, Repr

/-- A channel entity from the store. -/
structure AppChannel where
  id : String
  name : String
  display_name : String
  team_id : Option String := none
deriving DecidableEq, Repr

/-- The `AppCallResponseTypes` values; `other` covers unknown kinds. -/
inductive CallResponseType where
  | ok
  | form
  | navigate
  | other (s : String)
deriving DecidableEq, Repr

def CallResponseType.name : CallResponseType → String
  | .ok => "ok"
  | .form => "form"
  | .navigate => "navigate"
  | .other s => s

/-- An `AppCallResponse` as consumed by this code: a kind plus the payloads
the call sites read (`form`, `data.items`). -/
structure AppCallResponse where
  type : CallResponseType
  form : Option AppForm := none
  items : Option (List AppSelectOption) := none
deriving DecidableEq, Repr

/-- The result of dispatching `doAppCall`: either `{error}` (carrying the
error response's optional message) or `{data}`. -/
inductive DispatchResult where
  | error (msg : Option String)
  | data (res : AppCallResponse)
deriving DecidableEq, Repr

/-- An `AppContext` for performing calls. -/
structure AppContext where
  app_id : String
  location : String := "/command"
  root_id : Option String := none
  channel_id : Option String := none
  team_id : Option String := none
deriving DecidableEq, Repr

/-- An `AppCallRequest` payload. -/
structure AppCallRequest where
  call : AppCall
  context : AppContext
  values : Values := []
  raw_command : Option String := none
  selected_field : Option String := none
  query : Option String := none
deriving DecidableEq, Repr

/-- Modelled from the spec: `createCallRequest` is an external helper that
bundles the resolved call target, the execution context, the expanded value
map and the raw command into one request payload. -/
def createCallRequest (call : AppCall) (context : AppContext)
    (values : Values := []) (rawCommand : Option String := none) : AppCallRequest :=
  { call := call, context := context, values := values, raw_command := rawCommand }

/-- The external collaborators of one `AppCommandParser` instance: the redux
store selectors, the asynchronous fetches and the remote invocation
interface, plus the instance's own channel context.  Each is an explicit
oracle so the engine stays a pure function of them. -/
structure Env where
  bindings : List AppBinding
  selectUserById : String → Option AppUser
  fetchUserById : String → Option AppUser
  selectChannelById : String → Option AppChannel
  fetchChannelById : String → Option AppChannel
  selectUserByUsername : String → Option AppUser
  fetchUserByUsername : String → Option AppUser
  selectChannelByName : String → Option AppChannel
  fetchChannelByNameAndTeamName : String → String → Option AppChannel
  currentTeamName : String
  currentTeamId : String
  channel : Option AppChannel
  rootPostID : Option String
  doAppCallForm : AppCallRequest → DispatchResult
  doAppCallLookup : AppCallRequest → DispatchResult

/-! ### Orchestrator error and suggestion text -/

def unknownErrorMsg : String := "Unknown error."
def unexpectedTypeMsg (t : CallResponseType) : String :=
  "App response type was not expected. Response type: " ++ t.name
def unknownTypeMsg (t : CallResponseType) : String :=
  "App response type not supported. Response type: " ++ t.name ++ "."
def missingBindingMsg : String := "Missing command bindings."
def missingCallMsg : String := "Missing binding call."
def fieldMissingMsg (fieldName : String) : String :=
  "Required fields missing: `" ++ fieldName ++ "`."
def unexpectedErrorMsg : String := "Unexpected error."
def errorPreparingRequestMsg (errorMessage : String) : String :=
  "Error preparing lookup request: " ++ errorMessage

/-- JS string coercion of a recorded value, for error message templates. -/
def FieldValue.display : FieldValue → String
  | .str s => s
  | .sel _ _ => "[object Object]"

def unknownOptionMsg (fieldName option : String) : String :=
  "Unknown option for field `" ++ fieldName ++ "`: `" ++ option ++ "`."
def unknownUserMsg (fieldName option : String) : String :=
  "Unknown user for field `" ++ fieldName ++ "`: `" ++ option ++ "`."
def unknownChannelMsg (fieldName option : String) : String :=
  "Unknown channel for field `" ++ fieldName ++ "`: `" ++ option ++ "`."

/-- Modelled from the spec: `parserErrorMessage` is an external helper that
maps a tokenizer error message plus the byte offset at failure into one
user-facing message. -/
def parserErrorMessage (error : String) (command : List Char) (i : Nat) : String :=
  error ++ " [" ++ String.mk command ++ " : " ++ toString i ++ "]"

/-- An `AutocompleteSuggestion` as emitted to the suggestion consumer. -/
structure AutocompleteSuggestion where
  Complete : String := ""
  Suggestion : String := ""
  Hint : String := ""
  Description : String := ""
  IconData : String := ""
deriving DecidableEq, Repr

/-! ### Schema access: `fetchForm` and the forms cache (`getForm`) -/

/-- Source `getAppContext`: post/channel/team info for performing calls.
`team_id` falls back to the current team when the channel carries none. -/
def getAppContext (env : Env) (appID : String) : AppContext :=
  let context : AppContext :=
    { app_id := appID, location := "/command", root_id := env.rootPostID }
  match env.channel with
  | none => context
  | some channel =>
    { context with channel_id := some channel.id,
                   team_id := some (jsOrOptStr channel.team_id env.currentTeamId) }

/-- Source `fetchForm`: unconditionally retrieve the form for a binding.  Returns
`none` (JS `undefined`) when the binding carries no call; otherwise performs
the external FORM call and classifies the response kind. -/
def fetchForm (env : Env) (binding : AppBinding) : Option FormResult :=
  match binding.call with
  | none => none
  | some call =>
    let payload := createCallRequest call (getAppContext env binding.app_id)
    match env.doAppCallForm payload with
    | .error msg => some { error := some (jsOrOptStr msg unknownErrorMsg) }
    | .data callResponse =>
      match callResponse.type with
      | .form => some { form := callResponse.form }
      | .navigate | .ok => some { error := some (unexpectedTypeMsg callResponse.type) }
      | .other t => some { error := some (unknownTypeMsg (.other t)) }

/-- The per-session forms cache, keyed by location path. -/
abbrev FormsCacheMap := List (String × AppForm)

/-- JS `this.forms[location] = form`. -/
def setCachedForm (forms : FormsCacheMap) (location : String) (f : AppForm) :
    FormsCacheMap :=
  if forms.any (fun p => p.1 = location) then
    forms.map (fun p => if p.1 = location then (location, f) else p)
  else
    forms ++ [(location, f)]

/-- Source `getForm(location, binding)`: return the cached form if present;
otherwise fetch, memoizing only a successful fetch.  Returns the result and
the updated cache. -/
def getFormCached (env : Env) (forms : FormsCacheMap) (location : String)
    (binding : AppBinding) : Option FormResult × FormsCacheMap :=
  match forms.lookup location with
  | some form => (some { form := some form }, forms)
  | none =>
    let fetched := fetchForm env binding
    match fetched with
    | some r =>
      match r.form with
      | some f => (fetched, setCachedForm forms location f)
      | none => (fetched, forms)
    | none => (none, forms)

/-- The `FormsCache` interface handed to `ParsedCommand` (result component
of `getFormCached`; the cache write is a side effect on the parser
instance, not on the parse result). -/
def getFormFn (env : Env) (forms : FormsCacheMap) :
    String → AppBinding → Option FormResult :=
  fun location binding => (getFormCached env forms location binding).1

/-! ### Orchestrator: call composition -/

/-- Source `getMissingFields`: the required fields not supplied in a submission. -/
def getMissingFields (p : ParsedCommand) : List AppField :=
  match p.form with
  | none => []
  | some form =>
    (form.fields.getD []).filter
      (fun field => field.is_required ∧ ¬truthyVal (p.values.lookup field.name))

/-- Source `addDefaultAndReadOnlyValues`: fill values for readonly fields that have
a default and were not supplied, typed per field; reference defaults resolve
by ID against the store with an external fallback, silently skipped on
failure. -/
def addDefaultAndReadOnlyValues (env : Env) (p : ParsedCommand) : ParsedCommand :=
  let fields := (match p.form with
    | some form => form.fields.getD []
    | none => [])
  let values := fields.foldl (fun (values : Values) f =>
    if ¬truthyVal f.value then
      values
    else if ¬f.readonly ∨ (values.lookup f.name).isSome then
      values
    else
      match f.type with
      | .text =>
        -- `parsed.values[f.name] = f.value as string` stores the default as is
        setValue values f.name (f.value.getD (.str ""))
      | .bool => setValue values f.name (.str "true")
      | .user =>
        let userID := match f.value with
          | some (.sel _ (.str s)) => s
          | _ => ""
        (match env.selectUserById userID with
         | some user => setValue values f.name (.str user.username)
         | none =>
           match env.fetchUserById userID with
           | some user => setValue values f.name (.str user.username)
           | none => values)  -- silently fail on default value
      | .channel =>
        -- the source reads the channel id out of the option's `label`
        let channelID := match f.value with
          | some (.sel l _) => l
          | _ => ""
        (match env.selectChannelById channelID with
         | some channel => setValue values f.name (.str channel.name)
         | none =>
           match env.fetchChannelById channelID with
           | some channel => setValue values f.name (.str channel.name)
           | none => values)  -- silently fail on default value
      | .staticSelect | .dynamicSelect =>
        setValue values f.name (match f.value with
          | some (.sel _ w) => w
          | _ => .str "")
      | .markdown => values) p.values
  { p with values := values }

/-- Source `expandOptions`: expand raw string values into their final typed shape,
collecting per-field errors keyed by field name.  Returns the updated value
map and the newline-joined error message, if any. -/
def expandOptions (env : Env) (p : ParsedCommand) (values : Values) :
    Values × Option String :=
  match p.form with
  | none => (values, none)
  | some form =>
    match form.fields with
    | none => (values, none)
    | some fields =>
      let (values, errors) := fields.foldl
        (fun (acc : Values × List String) f =>
          let (values, errors) := acc
          match values.lookup f.name with
          | none => (values, errors)
          | some v =>
            if truthyVal (some v) = false then (values, errors)
            else
              match f.type with
              | .dynamicSelect =>
                (setValue values f.name (.sel "" v), errors)
              | .staticSelect =>
                (match (f.options.getD []).find?
                    (fun o => match v with
                      | .str s => o.value == s
                      | .sel _ _ => false) with
                 | none =>
                   (values, errors ++ [unknownOptionMsg f.name v.display])
                 | some option =>
                   (setValue values f.name (.sel option.label (.str option.value)),
                    errors))
              | .user =>
                let userName := match v with
                  | .str s => s
                  | .sel _ _ => ""
                let userName := if jsStartsWith userName "@" then
                    jsSubstrFrom userName 1 else userName
                (match env.selectUserByUsername userName with
                 | some user =>
                   (setValue values f.name (.sel user.username (.str user.id)), errors)
                 | none =>
                   match env.fetchUserByUsername userName with
                   | some user =>
                     (setValue values f.name (.sel user.username (.str user.id)),
                      errors)
                   | none => (values, errors ++ [unknownUserMsg f.name v.display]))
              | .channel =>
                let channelName := match v with
                  | .str s => s
                  | .sel _ _ => ""
                let channelName := if jsStartsWith channelName "~" then
                    jsSubstrFrom channelName 1 else channelName
                (match env.selectChannelByName channelName with
                 | some channel =>
                   (setValue values f.name
                      (.sel channel.display_name (.str channel.id)), errors)
                 | none =>
                   match env.fetchChannelByNameAndTeamName env.currentTeamName
                       channelName with
                   | some channel =>
                     (setValue values f.name
                        (.sel channel.display_name (.str channel.id)), errors)
                   | none => (values, errors ++ [unknownChannelMsg f.name v.display]))
              | _ => (values, errors))
        (values, [])
      if errors = [] then
        (values, none)
      else
        (values, some (errors.foldl (fun acc e => acc ++ e ++ "\n") ""))

/-- Source `composeCallFromParsed`: build the submission payload from a parsed
command.  `expandOptions` works on `parsed.values` itself (aliasing in the
source), so the updated `ParsedCommand` is returned as well. -/
def composeCallFromParsed (env : Env) (p : ParsedCommand) :
    (Option AppCallRequest × Option String) × ParsedCommand :=
  match p.binding with
  | none => ((none, some missingBindingMsg), p)
  | some binding =>
    match jsOrOpt (p.form.bind AppForm.call) binding.call with
    | none => ((none, some missingCallMsg), p)
    | some call =>
      let (values, errorMessage) := expandOptions env p p.values
      let p := { p with values := values }
      match errorMessage with
      | some e => ((none, some e), p)
      | none =>
        let context := getAppContext env binding.app_id
        ((some (createCallRequest call context values
            (some (String.mk p.command))), none), p)

/-- Source `composeCallFromCommand`: the full submission path: complete-mode parse,
default/readonly resolution, required-field check, then call composition. -/
def composeCallFromCommand (env : Env) (forms : FormsCacheMap)
    (command : String) : Option AppCallRequest × Option String :=
  let parsed := mkParsed command
  -- `if (!commandBindings)` never fires: an array (even empty) is truthy
  let parsed := matchBindingRun (getFormFn env forms) env.bindings false parsed
  let parsed := parseFormRun false parsed
  if parsed.state = .Error then
    (none, some (parserErrorMessage parsed.error parsed.command parsed.i))
  else
    let parsed := addDefaultAndReadOnlyValues env parsed
    let missing := getMissingFields parsed
    if missing ≠ [] then
      let missingStr := String.intercalate ", " (missing.map (fun f => f.label.getD ""))
      (none, some (fieldMissingMsg missingStr))
    else
      (composeCallFromParsed env parsed).1

/-! ### Orchestrator: suggestions -/

def noSuggestionHint : String := "No matching suggestions."
def parserErrorHint : String := "Parsing error"
def noStaticHint : String := "No matching options."
def noDynamicDescription : String := "No data was returned for dynamic suggestions"
def dynamicSelectErrorSuggestionText : String := "Dynamic select error"
def appErrorText (error : String) : String := "Error: " ++ error

/-- Source `isMultiword`: whether a value needs wrapping to survive tokenizing. -/
def isMultiword (value : String) : Bool :=
  value.data.contains ' ' || value.data.contains '\t'

def getNoMatchingSuggestion : List AutocompleteSuggestion :=
  [{ Complete := "", Suggestion := "", Hint := noSuggestionHint,
     IconData := "error", Description := "" }]

def getErrorSuggestion (p : ParsedCommand) : List AutocompleteSuggestion :=
  [{ Complete := "", Suggestion := "", Hint := parserErrorHint,
     IconData := "error", Description := p.error }]

/-- Source `getCommandSuggestions`: prefix-matched child sub-command names. -/
def getCommandSuggestions (p : ParsedCommand) : List AutocompleteSuggestion :=
  match p.binding.bind AppBinding.bindings with
  | none => []
  | some [] => []
  | some bindings =>
    (bindings.filter
        (fun b => jsStartsWith (jsToLower b.label) (jsToLower p.incomplete))).map
      (fun b =>
        { Complete := b.label, Suggestion := b.label,
          Description := b.description.getD "", Hint := b.hint.getD "",
          IconData := b.icon.getD "" })

/-- Source `getUserSuggestions`: one `@username` hint while the token is empty. -/
def getUserSuggestions (p : ParsedCommand) : List AutocompleteSuggestion :=
  if (jsTrim p.incomplete).length = 0 then
    [{ Complete := "", Suggestion := "",
       Description := (p.field.bind AppField.description).getD "",
       Hint := jsOrOptStr (p.field.bind AppField.hint) "@username",
       IconData := (p.binding.bind AppBinding.icon).getD "" }]
  else
    []

/-- Source `getChannelSuggestions`: one `~channelname` hint while the token is empty. -/
def getChannelSuggestions (p : ParsedCommand) : List AutocompleteSuggestion :=
  if (jsTrim p.incomplete).length = 0 then
    [{ Complete := "", Suggestion := "",
       Description := (p.field.bind AppField.description).getD "",
       Hint := jsOrOptStr (p.field.bind AppField.hint) "~channelname",
       IconData := (p.binding.bind AppBinding.icon).getD "" }]
  else
    []

/-- Source `getBooleanSuggestions`: `true`/`false` filtered by the partial token. -/
def getBooleanSuggestions (p : ParsedCommand) : List AutocompleteSuggestion :=
  (if jsStartsWith "true" p.incomplete then
    [{ Complete := "true", Suggestion := "true",
       Description := (p.field.bind AppField.description).getD "",
       Hint := (p.field.bind AppField.hint).getD "",
       IconData := (p.binding.bind AppBinding.icon).getD "" }]
   else []) ++
  (if jsStartsWith "false" p.incomplete then
    [{ Complete := "false", Suggestion := "false",
       Description := (p.field.bind AppField.description).getD "",
       Hint := (p.field.bind AppField.hint).getD "",
       IconData := (p.binding.bind AppBinding.icon).getD "" }]
   else [])

/-- Source `getStaticSelectSuggestions`: options whose label prefix-matches, or a
"no matching options" placeholder. -/
def getStaticSelectSuggestions (p : ParsedCommand) (delimiter : Option String) :
    List AutocompleteSuggestion :=
  let opts := ((p.field.bind AppField.options).getD []).filter
    (fun opt => jsStartsWith (jsToLower opt.label) (jsToLower p.incomplete))
  match opts with
  | [] =>
    [{ Complete := "", Suggestion := "", Hint := noStaticHint,
       Description := "", IconData := "error" }]
  | _ =>
    opts.map (fun opt =>
      let complete := opt.value
      let complete := match delimiter with
        | some d => d ++ complete ++ d
        | none => if isMultiword opt.value then "`" ++ complete ++ "`" else complete
      { Complete := complete, Suggestion := opt.label,
        Hint := (p.field.bind AppField.hint).getD "",
        Description := (p.field.bind AppField.description).getD "",
        IconData := jsOrOptStr opt.icon_data
          ((p.binding.bind AppBinding.icon).getD "") })

def makeDynamicSelectSuggestionError (message : String) :
    List AutocompleteSuggestion :=
  [{ Complete := "", Suggestion := dynamicSelectErrorSuggestionText,
     Hint := "", IconData := "error", Description := appErrorText message }]

def noDynamicPlaceholder : List AutocompleteSuggestion :=
  [{ Complete := "", Suggestion := "", Hint := noStaticHint,
     IconData := "", Description := noDynamicDescription }]

/-- Source `getDynamicSelectSuggestions`: compose the call so far, attach the
selected field and the partial token as query, issue the external LOOKUP
call and map its items.  The value map updated by `composeCallFromParsed`
is kept on the returned `ParsedCommand` (aliasing in the source). -/
def getDynamicSelectSuggestions (env : Env) (p : ParsedCommand)
    (delimiter : Option String) : ParsedCommand × List AutocompleteSuggestion :=
  match p.field with
  | none => (p, makeDynamicSelectSuggestionError unexpectedErrorMsg)
  | some f =>
    let ((call?, errorMessage), p) := composeCallFromParsed env p
    match call? with
    | none =>
      (p, makeDynamicSelectSuggestionError
        (errorPreparingRequestMsg (errorMessage.getD "")))
    | some call =>
      let call := { call with selected_field := some f.name,
                              query := some p.incomplete }
      match env.doAppCallLookup call with
      | .error msg =>
        (p, makeDynamicSelectSuggestionError (jsOrOptStr msg unknownErrorMsg))
      | .data callResponse =>
        match callResponse.type with
        | .ok =>
          (match callResponse.items with
           | none => (p, noDynamicPlaceholder)
           | some [] => (p, noDynamicPlaceholder)
           | some items =>
             (p, items.map (fun s =>
               let complete := s.value
               let complete := match delimiter with
                 | some d => d ++ complete ++ d
                 | none =>
                   if isMultiword s.value then "`" ++ complete ++ "`" else complete
               { Complete := complete, Description := s.label,
                 Suggestion := s.value, Hint := "",
                 IconData := jsOrOptStr s.icon_data
                   ((p.binding.bind AppBinding.icon).getD "") })))
        | .navigate | .form =>
          (p, makeDynamicSelectSuggestionError (unexpectedTypeMsg callResponse.type))
        | .other t =>
          (p, makeDynamicSelectSuggestionError (unknownTypeMsg (.other t)))

/-- The number of dashes already typed before the current flag token: the
source walks back up to two positions from `incompleteStart` counting `-`
characters and shortens the suggested `--` accordingly. -/
def flagDashMark (p : ParsedCommand) : String :=
  if 2 ≤ p.incompleteStart ∧ charAt p.command (p.incompleteStart - 1) = some '-' then
    if 3 ≤ p.incompleteStart ∧ charAt p.command (p.incompleteStart - 2) = some '-' then
      ""
    else
      "-"
  else
    "--"

/-- The suggestion built for one flag field. -/
def mkFlagSuggestion (p : ParsedCommand) (f : AppField) : AutocompleteSuggestion :=
  { Complete := flagDashMark p ++ jsOrOptStr f.label f.name,
    Suggestion := "--" ++ jsOrOptStr f.label f.name,
    Description := f.description.getD "",
    Hint := f.hint.getD "",
    IconData := (p.binding.bind AppBinding.icon).getD "" }

/-- The filter applied by `getFlagNameSuggestions`: the field has a truthy
label whose lowercase form starts with the lowercased partial token, and no
truthy value is recorded for it yet. -/
def flagApplicable (p : ParsedCommand) (field : AppField) : Bool :=
  match field.label with
  | none => false
  | some l =>
    l ≠ "" ∧ jsStartsWith (jsToLower l) (jsToLower p.incomplete) ∧
      ¬truthyVal (p.values.lookup field.name)

/-- Source `getFlagNameSuggestions`: suggestions for flag names. -/
def getFlagNameSuggestions (p : ParsedCommand) : List AutocompleteSuggestion :=
  match p.form with
  | none => []
  | some form =>
    match form.fields with
    | none => []
    | some [] => []
    | some fields =>
      let applicable := fields.filter (flagApplicable p)
      applicable.map (mkFlagSuggestion p)

/-- Source `getValueSuggestions`: suggestions for a positional or flag value,
dispatched on the field type.  Returns the possibly-updated parse state
(the dynamic-select path mutates `parsed.values`). -/
def getValueSuggestions (env : Env) (p : ParsedCommand)
    (delimiter : Option String) : ParsedCommand × List AutocompleteSuggestion :=
  match p.field with
  | none => (p, [])
  | some f =>
    match f.type with
    | .user => (p, getUserSuggestions p)
    | .channel => (p, getChannelSuggestions p)
    | .bool => (p, getBooleanSuggestions p)
    | .dynamicSelect => getDynamicSelectSuggestions env p delimiter
    | .staticSelect => (p, getStaticSelectSuggestions p delimiter)
    | _ =>
      let complete := p.incomplete
      let complete := match delimiter with
        | some d => if complete ≠ "" then d ++ complete ++ d else complete
        | none => complete
      let d := delimiter.getD "\""
      (p, [{ Complete := complete,
             Suggestion := jsOrOptStr f.label f.name ++ ": " ++ d ++ p.incomplete ++ d,
             Description := f.description.getD "",
             Hint := "",
             IconData := (p.binding.bind AppBinding.icon).getD "" }])

/-- Source `getParameterSuggestions`: dispatch on the state the tokenizer stopped
in.  In `StartParameter` a matching positional field is assigned to
`parsed.field` (visible to the caller) before value suggestions are made. -/
def getParameterSuggestions (env : Env) (p : ParsedCommand) :
    ParsedCommand × List AutocompleteSuggestion :=
  match p.state with
  | .StartParameter =>
    (match ((p.form.bind AppForm.fields).getD []).find?
        (fun f => f.position == some ((p.position : Int) + 1)) with
     | some positional =>
       let p := { p with field := some positional }
       getValueSuggestions env p none
     | none => (p, getFlagNameSuggestions p))
  | .Flag => (p, getFlagNameSuggestions p)
  | .EndValue | .FlagValueSeparator | .NonspaceValue =>
    getValueSuggestions env p none
  | .EndQuotedValue | .QuotedValue => getValueSuggestions env p (some "\"")
  | .EndTickedValue | .TickValue => getValueSuggestions env p (some "`")
  | _ => (p, [])

/-- The sentinel suffix marking the "execute current command" item. -/
def EXECUTE_CURRENT_COMMAND_ITEM_ID : String := "_execute_current_command"

/-- Modelled from the spec: `getExecuteSuggestion` is an external helper
that builds the "execute now" suggestion prepended when the command could be
validly executed as-is; its completion carries the execute sentinel so the
completion-rewriting step leaves it untouched. -/
def getExecuteSuggestion (p : ParsedCommand) : Option AutocompleteSuggestion :=
  some { Complete := String.mk p.command ++ EXECUTE_CURRENT_COMMAND_ITEM_ID,
         Suggestion := "Execute Current Command",
         Hint := "", Description := "", IconData := "" }

/-- Source `decorateSuggestionComplete`: splice the chosen suggestion text back
into the original command string from the current token's start offset. -/
def decorateSuggestionComplete (p : ParsedCommand)
    (choice : AutocompleteSuggestion) : AutocompleteSuggestion :=
  if choice.Complete ≠ "" ∧ jsEndsWith choice.Complete EXECUTE_CURRENT_COMMAND_ITEM_ID then
    choice
  else
    let goBackSpace := if choice.Complete = "" then 1 else 0
    let complete := String.mk (p.command.take (p.incompleteStart - goBackSpace)) ++
      choice.Complete
    let complete := String.mk complete.data.tail
    { choice with Complete := complete }

/-- The states from which the command could be executed as-is. -/
def executableStates : List ParseState :=
  [.EndCommand, .CommandSeparator, .StartParameter, .ParameterSeparator, .EndValue]

/-- Source `parsed.field?.type !== USER && parsed.field?.type !== CHANNEL`. -/
def fieldNotUserChannel (p : ParsedCommand) : Bool :=
  match p.field with
  | none => true
  | some f => f.type ≠ .user ∧ f.type ≠ .channel

/-- The final block of `getSuggestions`: prepend the "execute current
command" suggestion when the parse stopped in an executable state with a
resolvable call, all required fields satisfied and a value present;
otherwise fall back to the placeholder when nothing was suggested and the
current field is not a user/channel reference; finally rewrite every
completion against the original command string. -/
def finishSuggestions (parsed : ParsedCommand)
    (suggestions : List AutocompleteSuggestion) :
    ParsedCommand × List AutocompleteSuggestion :=
  let call := jsOrOpt (jsOrOpt (parsed.form.bind AppForm.call)
    (parsed.binding.bind AppBinding.call))
    ((parsed.binding.bind AppBinding.form).bind AppForm.call)
  let hasRequired : Bool := (getMissingFields parsed).length = 0
  let hasValue : Bool := (parsed.state != .EndValue) ||
    (match parsed.field with
     | some f => (parsed.values.lookup f.name).isSome
     | none => false)
  if parsed.state ∈ executableStates ∧ call.isSome ∧ hasRequired ∧ hasValue then
    match getExecuteSuggestion parsed with
    | some execute =>
      (parsed, (execute :: suggestions).map (decorateSuggestionComplete parsed))
    | none => (parsed, suggestions.map (decorateSuggestionComplete parsed))
  else if suggestions = [] ∧ fieldNotUserChannel parsed then
    (parsed, getNoMatchingSuggestion.map (decorateSuggestionComplete parsed))
  else
    (parsed, suggestions.map (decorateSuggestionComplete parsed))

/-- Source `getSuggestions(pretext)`, also returning the final `ParsedCommand`
(the source keeps it in a local). -/
def getSuggestionsParsed (env : Env) (forms : FormsCacheMap) (pretext : String) :
    ParsedCommand × List AutocompleteSuggestion :=
  let parsed := mkParsed pretext
  -- `if (!commandBindings) return []` never fires: an array is truthy
  let parsed := matchBindingRun (getFormFn env forms) env.bindings true parsed
  let suggestions := if parsed.state = .Error then getErrorSuggestion parsed else []
  let suggestions :=
    if parsed.state = .Command then getCommandSuggestions parsed else suggestions
  let (parsed, suggestions) :=
    if parsed.form.isSome ∨ parsed.incomplete ≠ "" then
      let parsed := parseFormRun true parsed
      let suggestions :=
        if parsed.state = .Error then getErrorSuggestion parsed else suggestions
      let (parsed, argSuggestions) := getParameterSuggestions env parsed
      (parsed, suggestions ++ argSuggestions)
    else
      (parsed, suggestions)
  finishSuggestions parsed suggestions

def getSuggestions (env : Env) (forms : FormsCacheMap) (pretext : String) :
    List AutocompleteSuggestion :=
  (getSuggestionsParsed env forms pretext).2

/-- Source `isAppCommand(pretext)`: whether the lowercased pretext starts with a
known top-level binding label (slash-prefixed if needed) plus a space. -/
def isAppCommand (env : Env) (pretext : String) : Bool :=
  let command := jsToLower pretext
  env.bindings.any (fun binding =>
    let base := binding.label
    if base = "" then
      false
    else
      let base := if base.data.head? = some '/' then base else "/" ++ base
      jsStartsWith command (base ++ " "))

/-! ### Test fixtures: a concrete environment with no external data -/

/-- A forms-cache oracle that never returns anything (no remote forms). -/
def noFetch : String → AppBinding → Option FormResult := fun _ _ => none

/-- An environment whose store is empty and whose remote calls fail. -/
def dummyEnv (bs : List AppBinding) : Env :=
  { bindings := bs,
    selectUserById := fun _ => none, fetchUserById := fun _ => none,
    selectChannelById := fun _ => none, fetchChannelById := fun _ => none,
    selectUserByUsername := fun _ => none, fetchUserByUsername := fun _ => none,
    selectChannelByName := fun _ => none,
    fetchChannelByNameAndTeamName := fun _ _ => none,
    currentTeamName := "team", currentTeamId := "teamid",
    channel := none, rootPostID := none,
    doAppCallForm := fun _ => .error none,
    doAppCallLookup := fun _ => .error none }

end AppCmd

namespace AppCmd

/-! ## Claim C1: boolean value backtracking -/

/-- C1 auxiliary fixture: a boolean flag `done` and a user flag `user`. -/
def fDoneC1 : AppField := { name := "done", type := .bool, label := some "done" }

def fUserC1 : AppField := { name := "user", type := .user, label := some "user" }

def formC1 : AppForm := { fields := some [fDoneC1, fUserC1], call := some ⟨"/c1"⟩ }

def bC1 : AppBinding := .mk "cmd" none (some formC1) none "app" none none none

/-- C1 fixture: the machine state about to finish the value token `--user`
for the boolean field `done` while parsing `/cmd --done --user bob`. -/
def pC1 : ParsedCommand :=
  { command := "/cmd --done --user bob".data, state := .EndValue,
    incomplete := "--user", incompleteStart := 12, i := 18,
    field := some fDoneC1, form := some formC1, binding := some bC1 }

/-- C1: whenever the field currently receiving a value has boolean type and
the accumulated token is not exactly `true`/`false` (complete mode) or not a
prefix of `true`/`false` (autocomplete mode), the End*Value handler resets
the cursor to the token's start, records `"true"` for the boolean field, and
transitions to `StartParameter` so the token is re-parsed as the next
parameter. -/
theorem c1_boolean_backtrack (fields : List AppField) (mode : Bool)
    (p : ParsedCommand) (fu es : Bool) (f : AppField)
    (hstate : p.state = .EndValue ∨ p.state = .EndQuotedValue ∨ p.state = .EndTickedValue)
    (hfield : p.field = some f) (htype : f.type = .bool)
    (hval : (mode = true ∧ jsStartsWith "true" p.incomplete = false ∧
               jsStartsWith "false" p.incomplete = false) ∨
            (mode = false ∧ p.incomplete ≠ "true" ∧ p.incomplete ≠ "false")) :
    parseFormStep fields mode p fu es =
      .cont { p with i := p.incompleteStart,
                     values := setValue p.values f.name (.str "true"),
                     state := .StartParameter } fu es := by
  have hcond : f.type = .bool ∧
      ((mode ∧ (jsStartsWith "true" p.incomplete) = false ∧
          (jsStartsWith "false" p.incomplete) = false) ∨
       (¬mode ∧ p.incomplete ≠ "true" ∧ p.incomplete ≠ "false")) := by
    refine ⟨htype, ?_⟩
    rcases hval with ⟨hm, h1, h2⟩ | ⟨hm, h1, h2⟩
    · exact Or.inl ⟨by simp [hm], h1, h2⟩
    · exact Or.inr ⟨by simp [hm], h1, h2⟩
  rcases hstate with h | h | h <;>
    simp only [parseFormStep, h, hfield, if_pos hcond]

/-- Witness for C1, including the end-to-end boolean-lookahead scenario: in
`/cmd --done --user bob` the flag `--done` binds `true` and `--user` is
re-parsed as a flag binding `bob`, not consumed as the boolean's value. -/
theorem c1_boolean_backtrack_witness :
    (parseFormStep [fDoneC1, fUserC1] false pC1 false false =
      .cont { pC1 with i := pC1.incompleteStart,
                       values := setValue pC1.values fDoneC1.name (.str "true"),
                       state := .StartParameter } false false) ∧
    (let run := parseFormRun false
      (matchBindingRun noFetch [bC1] false (mkParsed "/cmd --done --user bob"))
     run.values = [("done", .str "true"), ("user", .str "bob")] ∧
       run.error = "" ∧ run.state = .EndValue) :=
  ⟨c1_boolean_backtrack [fDoneC1, fUserC1] false pC1 false false fDoneC1
      (Or.inl rfl) rfl rfl (Or.inr ⟨rfl, by decide, by decide⟩),
   by exact ⟨by decide, by decide, by decide⟩⟩

/-! ## Claim C2: binding-walk fallthrough and the no-match error -/

/-- Any early return out of the `matchBinding` loop carries the no-slash or
the unreachable-state message. -/
lemma matchBindingStep_ret_error (mode : Bool) (p : ParsedCommand)
    (bs : List AppBinding) (q : ParsedCommand)
    (h : matchBindingStep mode p bs = .ret q) :
    q.error = noSlashMsg ∨ ∃ s, q.error = unexpectedStateMsg s := by
  obtain ⟨cmd, st, i, inc, incS, bnd, frm, fld, pos, vals, loc, err⟩ := p
  cases st <;>
    simp only [matchBindingStep, ParsedCommand.asError] at h <;>
    repeat' split at h
  all_goals first
    | (cases h; exact Or.inl rfl)
    | (cases h; exact Or.inr ⟨_, rfl⟩)
    | cases h

/-- A normal loop exit (`done`) leaves `error` and `command` untouched. -/
lemma matchBindingStep_done_inv (mode : Bool) (p : ParsedCommand)
    (bs : List AppBinding) (q : ParsedCommand) (bs' : List AppBinding)
    (h : matchBindingStep mode p bs = .done q bs') :
    q.error = p.error ∧ q.command = p.command := by
  obtain ⟨cmd, st, i, inc, incS, bnd, frm, fld, pos, vals, loc, err⟩ := p
  cases st <;>
    simp only [matchBindingStep, ParsedCommand.asError] at h <;>
    repeat' split at h
  all_goals first
    | (cases h; exact ⟨rfl, rfl⟩)
    | cases h

/-- A continuing iteration leaves `error` and `command` untouched. -/
lemma matchBindingStep_cont_inv (mode : Bool) (p : ParsedCommand)
    (bs : List AppBinding) (q : ParsedCommand) (bs' : List AppBinding)
    (h : matchBindingStep mode p bs = .cont q bs') :
    q.error = p.error ∧ q.command = p.command := by
  obtain ⟨cmd, st, i, inc, incS, bnd, frm, fld, pos, vals, loc, err⟩ := p
  cases st <;>
    simp only [matchBindingStep, ParsedCommand.asError] at h <;>
    repeat' split at h
  all_goals first
    | (cases h; exact ⟨rfl, rfl⟩)
    | cases h

/-- Lifting the step invariants through the loop: an early return carries a
no-slash or unreachable-state message. -/
lemma matchBindingLoop_ret_error (mode : Bool) (fuel : Nat) :
    ∀ (p : ParsedCommand) (bs : List AppBinding) (q : ParsedCommand),
      matchBindingLoop mode fuel p bs = .ret q →
      q.error = noSlashMsg ∨ ∃ s, q.error = unexpectedStateMsg s := by
  induction fuel with
  | zero => intro p bs q h; simp [matchBindingLoop] at h
  | succ n ih =>
    intro p bs q h
    rw [matchBindingLoop] at h
    split at h
    · rename_i q0 heq
      cases h
      exact matchBindingStep_ret_error mode p bs _ heq
    · rename_i q0 bs0 heq
      cases h
    · rename_i q0 bs0 heq
      exact ih q0 bs0 q h

/-- A normal loop exit keeps the initial `error` and `command`. -/
lemma matchBindingLoop_done_inv (mode : Bool) (fuel : Nat) :
    ∀ (p : ParsedCommand) (bs : List AppBinding) (q : ParsedCommand)
      (bs' : List AppBinding),
      matchBindingLoop mode fuel p bs = .done q bs' →
      q.error = p.error ∧ q.command = p.command := by
  induction fuel with
  | zero =>
    intro p bs q bs' h
    simp only [matchBindingLoop] at h
    cases h; exact ⟨rfl, rfl⟩
  | succ n ih =>
    intro p bs q bs' h
    rw [matchBindingLoop] at h
    split at h
    · rename_i q0 heq
      cases h
    · rename_i q0 bs0 heq
      cases h
      exact matchBindingStep_done_inv mode p bs _ _ heq
    · rename_i q0 bs0 heq
      obtain ⟨h1, h2⟩ := matchBindingStep_cont_inv mode p bs q0 bs0 heq
      obtain ⟨h3, h4⟩ := ih q0 bs0 q bs' h
      exact ⟨h3.trans h1, h4.trans h2⟩

/-- The no-match message starts with a backtick. -/
lemma noMatchMsg_head (cmd : List Char) : (noMatchMsg cmd).data.head? = some '`' := by
  simp [noMatchMsg, String.data_append]

/-- A string whose first character is not a backtick is not the no-match
message. -/
lemma ne_noMatchMsg_of_head {s : String} (h : s.data.head? ≠ some '`')
    (cmd : List Char) : s ≠ noMatchMsg cmd :=
  fun he => h (he ▸ noMatchMsg_head cmd)

/-- Observer for the claim's "no binding was ever matched": the binding walk
ends normally with no binding recorded. -/
def loopEndsUnmatched (cbs : List AppBinding) (mode : Bool) (cmd : String) : Bool :=
  match matchBindingLoop mode (matchBindingFuel (mkParsed cmd)) (mkParsed cmd) cbs with
  | .done q _ => q.binding.isNone
  | .ret _ => false

/-- C2 counterexample: with the empty binding tree and input `/zzz`, no
binding is ever matched (the walk ends with none recorded), yet the error
carried is the no-bindings message, not the no-match message — the claimed
"exactly when" fails at the empty binding list. -/
theorem c2_counterexample :
    (matchBindingRun noFetch [] false (mkParsed "/zzz")).error = noBindingsMsg ∧
    loopEndsUnmatched [] false "/zzz" = true ∧
    ¬(((matchBindingRun noFetch [] false (mkParsed "/zzz")).error =
        noMatchMsg "/zzz".data) ↔
      loopEndsUnmatched [] false "/zzz" = true) :=
  ⟨by decide, by decide, by intro h; exact absurd (h.mpr (by decide)) (by decide)⟩

/-- C2 (amended: the no-match error occurs exactly when the binding list is
non-empty AND no binding was ever matched — over the empty list the
no-bindings guard fires first): (i) when the `EndCommand` token matches no
label of the current candidate set, the walk stops (`done`) with the state
unchanged: no error is raised, the deepest matched binding is kept and the
cursor stays on the unmatched token; (ii) for every binding list (and a
forms cache that does not forge the message), `matchBinding` produces the
no-match error exactly when the binding list is non-empty and the walk
ended with no binding ever matched. -/
theorem c2_fallthrough_and_no_match :
    (∀ (mode : Bool) (p : ParsedCommand) (bs : List AppBinding),
       p.state = .EndCommand →
       bs.find? (fun b => jsToLower b.label == jsToLower p.incomplete) = none →
       matchBindingStep mode p bs = .done p bs) ∧
    (∀ (g : String → AppBinding → Option FormResult) (cbs : List AppBinding)
       (mode : Bool) (cmd : String),
       (∀ loc b r e, g loc b = some r → r.error = some e → e ≠ noMatchMsg cmd.data) →
       ((matchBindingRun g cbs mode (mkParsed cmd)).error = noMatchMsg cmd.data ↔
         (cbs.isEmpty = false ∧ loopEndsUnmatched cbs mode cmd = true))) := by
  constructor
  · intro mode p bs hstate hfind
    simp only [matchBindingStep, hstate, hfind]
  · intro g cbs mode cmd hg
    by_cases hne : cbs.isEmpty = true
    · unfold matchBindingRun
      rw [hne]
      simp only [if_true]
      refine iff_of_false ?_ (by simp [hne])
      dsimp only [ParsedCommand.asError]
      exact ne_noMatchMsg_of_head (by decide) cmd.data
    · have hne' : cbs.isEmpty = false := by simpa using hne
      have herr : (mkParsed cmd).error = "" := rfl
      unfold matchBindingRun loopEndsUnmatched
      rw [hne']
      simp only [Bool.false_eq_true, if_false, eq_self_iff_true, true_and]
      rcases hloop : matchBindingLoop mode (matchBindingFuel (mkParsed cmd))
          (mkParsed cmd) cbs with q | ⟨q, bs'⟩ <;> dsimp only
      · refine iff_of_false ?_ (by simp)
        intro h
        rcases matchBindingLoop_ret_error mode _ _ _ _ hloop with h1 | ⟨s, h1⟩
        · exact absurd (h1.symm.trans h)
            (ne_noMatchMsg_of_head (by simp [noSlashMsg]) cmd.data)
        · exact absurd (h1.symm.trans h)
            (ne_noMatchMsg_of_head
              (by simp [unexpectedStateMsg, String.data_append]) cmd.data)
      · obtain ⟨hqe, hqc⟩ := matchBindingLoop_done_inv mode _ _ _ _ _ hloop
        rw [herr] at hqe
        have hqc' : q.command = cmd.data := hqc
        rcases hb : q.binding with _ | b
        · simp only [matchBindingFinish, hb, ParsedCommand.asError, hqc',
            Option.isNone_none]
        · simp only [matchBindingFinish, hb, Option.isNone_some]
          rcases hf : b.form with _ | f
          · rcases hgf : g q.location b with _ | fetched
            · refine iff_of_false ?_ (by simp)
              dsimp only
              rw [hqe]
              exact ne_noMatchMsg_of_head (by simp) cmd.data
            · rcases hfe : fetched.error with _ | e
              · refine iff_of_false ?_ (by simp)
                dsimp only
                rw [hfe]
                dsimp only
                rw [hqe]
                exact ne_noMatchMsg_of_head (by simp) cmd.data
              · refine iff_of_false ?_ (by simp)
                dsimp only
                rw [hfe]
                dsimp only [ParsedCommand.asError]
                exact hg _ _ _ _ hgf hfe
          · refine iff_of_false ?_ (by simp)
            dsimp only
            rw [hqe]
            exact ne_noMatchMsg_of_head (by simp) cmd.data

/-- C2 fixture: a leaf binding `cmd` with an empty inline form. -/
def bC2 : AppBinding :=
  .mk "cmd" none (some { fields := some [] }) none "app" none none none

/-- C2 fixture: an `EndCommand` state holding the unmatched token `zzz`. -/
def pC2 : ParsedCommand :=
  { command := "/zzz".data, state := .EndCommand, incomplete := "zzz",
    incompleteStart := 1, i := 4 }

/-- Witness for C2 (amended): the unmatched token `zzz` stops the walk
without error, and the full `matchBinding` on `/zzz` over the non-empty
binding list reports the no-match error. -/
theorem c2_fallthrough_and_no_match_witness :
    (matchBindingStep false pC2 [bC2] = .done pC2 [bC2]) ∧
    ((matchBindingRun noFetch [bC2] false (mkParsed "/zzz")).error =
      noMatchMsg "/zzz".data) :=
  ⟨c2_fallthrough_and_no_match.1 false pC2 [bC2] rfl rfl,
   (c2_fallthrough_and_no_match.2 noFetch [bC2] false "/zzz"
      (fun _ _ _ _ h => nomatch h)).mpr ⟨rfl, by decide⟩⟩

/-! ## Claims C3 and C4: quoting, empty values, unterminated quotes -/

/-- C3/C4 fixture: a binding `cmd` with one positional text field `arg`. -/
def fArgC3 : AppField :=
  { name := "arg", type := .text, label := some "arg", position := some 1 }

def formC3 : AppForm := { fields := some [fArgC3], call := some ⟨"/c3"⟩ }

def bC3 : AppBinding := .mk "cmd" none (some formC3) none "app" none none none

/-- C3/C4 fixture: the full two-phase parse of an input against `bC3`. -/
def parseC3 (mode : Bool) (input : String) : ParsedCommand :=
  parseFormRun mode (matchBindingRun noFetch [bC3] mode (mkParsed input))

/-- C3: quoted and ticked positional values bind the literal between the
delimiters (`/cmd "a b"` and ``/cmd `a b` `` both bind `a b`), and — in
general, at any machine state — a closing delimiter immediately after the
opening one raises the empty-value error, in both modes (witnessed end to
end by `/cmd ""` and ``/cmd ` ` `` with no inner characters). -/
theorem c3_quoting_and_empty_values :
    ((parseC3 false "/cmd \"a b\"").values = [("arg", .str "a b")] ∧
       (parseC3 false "/cmd \"a b\"").error = "") ∧
    ((parseC3 false "/cmd `a b`").values = [("arg", .str "a b")] ∧
       (parseC3 false "/cmd `a b`").error = "") ∧
    (∀ (fields : List AppField) (mode : Bool) (p : ParsedCommand) (fu es : Bool),
       p.state = .QuotedValue → charAt p.command p.i = some '"' →
       p.incompleteStart + 1 = p.i →
       parseFormStep fields mode p fu es = .ret (p.asError emptyValueMsg)) ∧
    (∀ (fields : List AppField) (mode : Bool) (p : ParsedCommand) (fu es : Bool),
       p.state = .TickValue → charAt p.command p.i = some '`' →
       p.incompleteStart + 1 = p.i →
       parseFormStep fields mode p fu es = .ret (p.asError emptyValueMsg)) ∧
    (∀ mode, (parseC3 mode "/cmd \"\"").state = .Error ∧
       (parseC3 mode "/cmd \"\"").error = emptyValueMsg) ∧
    (∀ mode, (parseC3 mode "/cmd ``").state = .Error ∧
       (parseC3 mode "/cmd ``").error = emptyValueMsg) := by
  refine ⟨⟨by decide, by decide⟩, ⟨by decide, by decide⟩, ?_, ?_, ?_, ?_⟩
  · intro fields mode p fu es hstate hchar hstart
    simp only [parseFormStep, hstate, hchar, if_pos hstart]
  · intro fields mode p fu es hstate hchar hstart
    simp only [parseFormStep, hstate, hchar, if_pos hstart]
  · intro mode; cases mode <;> exact ⟨by decide, by decide⟩
  · intro mode; cases mode <;> exact ⟨by decide, by decide⟩

/-- C3 fixture: the machine about to read the closing quote of `/cmd ""`. -/
def pC3 : ParsedCommand :=
  { command := "/cmd \"\"".data, state := .QuotedValue, incomplete := "",
    incompleteStart := 5, i := 6, field := some fArgC3, form := some formC3 }

/-- C3 fixture: the ticked twin of `pC3` over ``/cmd ` ` `` with no inner
characters. -/
def pC3t : ParsedCommand :=
  { command := "/cmd ``".data, state := .TickValue, incomplete := "",
    incompleteStart := 5, i := 6, field := some fArgC3, form := some formC3 }

/-- Witness for C3: the empty-value steps applied at the concrete states
reached by `/cmd ""` and ``/cmd ` ` ``. -/
theorem c3_quoting_and_empty_values_witness :
    (parseFormStep [fArgC3] false pC3 false false =
      .ret (pC3.asError emptyValueMsg)) ∧
    (parseFormStep [fArgC3] true pC3t false false =
      .ret (pC3t.asError emptyValueMsg)) :=
  ⟨c3_quoting_and_empty_values.2.2.1 [fArgC3] false pC3 false false rfl rfl rfl,
   c3_quoting_and_empty_values.2.2.2.1 [fArgC3] true pC3t false false rfl rfl rfl⟩

/-- C4: hitting end-of-input inside a quoted or ticked value is the
missing-quote/missing-tick error in complete mode, and a clean return with
the partial literal retained in autocomplete mode; witnessed end to end by
`/cmd "abc`. -/
theorem c4_unterminated_quote :
    (∀ (fields : List AppField) (p : ParsedCommand) (fu es : Bool),
       p.state = .QuotedValue → charAt p.command p.i = none →
       parseFormStep fields false p fu es = .ret (p.asError missingQuoteMsg)) ∧
    (∀ (fields : List AppField) (p : ParsedCommand) (fu es : Bool),
       p.state = .QuotedValue → charAt p.command p.i = none →
       parseFormStep fields true p fu es = .ret p) ∧
    (∀ (fields : List AppField) (p : ParsedCommand) (fu es : Bool),
       p.state = .TickValue → charAt p.command p.i = none →
       parseFormStep fields false p fu es = .ret (p.asError missingTickMsg)) ∧
    (∀ (fields : List AppField) (p : ParsedCommand) (fu es : Bool),
       p.state = .TickValue → charAt p.command p.i = none →
       parseFormStep fields true p fu es = .ret p) ∧
    ((parseC3 false "/cmd \"abc").state = .Error ∧
       (parseC3 false "/cmd \"abc").error = missingQuoteMsg) ∧
    ((parseC3 true "/cmd \"abc").state = .QuotedValue ∧
       (parseC3 true "/cmd \"abc").error = "" ∧
       (parseC3 true "/cmd \"abc").incomplete = "abc") ∧
    ((parseC3 false "/cmd `abc").error = missingTickMsg) := by
  refine ⟨?_, ?_, ?_, ?_, ⟨by decide, by decide⟩, ⟨by decide, by decide, by decide⟩,
    by decide⟩
  · intro fields p fu es hstate hchar
    simp [parseFormStep, hstate, hchar]
  · intro fields p fu es hstate hchar
    simp [parseFormStep, hstate, hchar]
  · intro fields p fu es hstate hchar
    simp [parseFormStep, hstate, hchar]
  · intro fields p fu es hstate hchar
    simp [parseFormStep, hstate, hchar]

/-- C4 fixture: the machine at end-of-input inside the quote of `/cmd "abc`. -/
def pC4 : ParsedCommand :=
  { command := "/cmd \"abc".data, state := .QuotedValue, incomplete := "abc",
    incompleteStart := 5, i := 9, field := some fArgC3, form := some formC3 }

/-- C4 fixture: the ticked twin of `pC4`. -/
def pC4t : ParsedCommand :=
  { command := "/cmd `abc".data, state := .TickValue, incomplete := "abc",
    incompleteStart := 5, i := 9, field := some fArgC3, form := some formC3 }

/-- Witness for C4: all four end-of-input steps at concrete states. -/
theorem c4_unterminated_quote_witness :
    (parseFormStep [fArgC3] false pC4 false false =
      .ret (pC4.asError missingQuoteMsg)) ∧
    (parseFormStep [fArgC3] true pC4 false false = .ret pC4) ∧
    (parseFormStep [fArgC3] false pC4t false false =
      .ret (pC4t.asError missingTickMsg)) ∧
    (parseFormStep [fArgC3] true pC4t false false = .ret pC4t) :=
  ⟨c4_unterminated_quote.1 [fArgC3] pC4 false false rfl rfl,
   c4_unterminated_quote.2.1 [fArgC3] pC4 false false rfl rfl,
   c4_unterminated_quote.2.2.1 [fArgC3] pC4t false false rfl rfl,
   c4_unterminated_quote.2.2.2.1 [fArgC3] pC4t false false rfl rfl⟩

/-! ## Claim C5: inputs not starting with `/` -/

/-- C5 counterexample: with an empty binding list, an input that does not
start with `/` is rejected with the no-bindings message, not the
must-start-with-slash message the claim requires for any binding list. -/
theorem c5_counterexample :
    (matchBindingRun noFetch [] false (mkParsed "hello")).state = .Error ∧
    (matchBindingRun noFetch [] false (mkParsed "hello")).error = noBindingsMsg ∧
    noBindingsMsg ≠ noSlashMsg := by
  refine ⟨by decide, by decide, by decide⟩

/-- With fuel available, a loop started in `Start` on a non-`/` character
returns the no-slash error immediately. -/
lemma matchBindingLoop_start_noSlash (mode : Bool) (fuel : Nat)
    (p : ParsedCommand) (bs : List AppBinding)
    (hstate : p.state = .Start) (hchar : charAt p.command p.i ≠ some '/') :
    matchBindingLoop mode (fuel + 1) p bs = .ret (p.asError noSlashMsg) := by
  rw [matchBindingLoop]
  simp only [matchBindingStep, hstate, if_pos hchar]

/-- C5 (amended: the binding list must be non-empty, else the no-bindings
check fires first): for every input that does not start with `/`,
`matchBinding` in either mode ends in the `Error` state carrying the
must-start-with-slash message. -/
theorem c5_no_slash_error (g : String → AppBinding → Option FormResult)
    (cbs : List AppBinding) (mode : Bool) (cmd : String)
    (hne : cbs.isEmpty = false) (hslash : cmd.data.head? ≠ some '/') :
    (matchBindingRun g cbs mode (mkParsed cmd)).state = .Error ∧
    (matchBindingRun g cbs mode (mkParsed cmd)).error = noSlashMsg := by
  have hchar : charAt (mkParsed cmd).command (mkParsed cmd).i ≠ some '/' := by
    simpa [mkParsed, charAt, List.getElem?_eq_none_iff, ← List.head?_eq_getElem?]
      using hslash
  obtain ⟨k, hk⟩ : ∃ k, matchBindingFuel (mkParsed cmd) = k + 1 :=
    ⟨4 * (mkParsed cmd).command.length + 7, by simp [matchBindingFuel]⟩
  unfold matchBindingRun
  rw [hne]
  simp only [Bool.false_eq_true, if_false, hk,
    matchBindingLoop_start_noSlash mode k (mkParsed cmd) cbs rfl hchar]
  exact ⟨rfl, rfl⟩

/-- Witness for C5 (amended): a one-binding list and the input `hello`. -/
theorem c5_no_slash_error_witness :
    (matchBindingRun noFetch [bC3] true (mkParsed "hello")).state = .Error ∧
    (matchBindingRun noFetch [bC3] true (mkParsed "hello")).error = noSlashMsg :=
  c5_no_slash_error noFetch [bC3] true "hello" rfl (by decide)

/-! ## Claim C6: suggestion-list non-emptiness -/

/-- C6 fixture: a binding whose form has one positional user field. -/
def fWhoC6 : AppField :=
  { name := "who", type := .user, label := some "who", position := some 1 }

def bC6u : AppBinding :=
  .mk "cmd" none (some { fields := some [fWhoC6] }) none "app" none none none

/-- C6 counterexample: with a user-reference field and a typed partial value
(`/cmd bob`), the engine defers to the external mention autocomplete and
`getSuggestions` returns the empty list — the claim's unconditional
non-emptiness fails. -/
theorem c6_counterexample :
    getSuggestions (dummyEnv [bC6u]) [] "/cmd bob" = [] := by decide

/-- C6 fixture: a binding with an empty form and no call target, so no
suggestion source applies and the placeholder fires. -/
def bC6e : AppBinding :=
  .mk "cmd" none (some { fields := none }) none "app" none none none

/-- The final suggestion-assembly block keeps the parse state unchanged. -/
lemma finishSuggestions_fst (parsed : ParsedCommand)
    (suggestions : List AutocompleteSuggestion) :
    (finishSuggestions parsed suggestions).1 = parsed := by
  unfold finishSuggestions
  dsimp only [getExecuteSuggestion]
  split
  · rfl
  · split <;> rfl

/-- If the final suggestion-assembly block emits the empty list, the
user/channel exemption was the reason. -/
lemma finishSuggestions_empty (parsed : ParsedCommand)
    (suggestions : List AutocompleteSuggestion)
    (h : (finishSuggestions parsed suggestions).2 = []) :
    fieldNotUserChannel parsed = false := by
  unfold finishSuggestions at h
  dsimp only [getExecuteSuggestion] at h
  split at h
  · simp at h
  · split at h
    · simp [getNoMatchingSuggestion] at h
    · rename_i hc2
      dsimp only at h
      rw [List.map_eq_nil_iff] at h
      rw [h] at hc2
      simp only [true_and, Bool.not_eq_true] at hc2
      exact hc2

/-- When the user/channel-exemption test comes back false, the current field
is a user or channel reference. -/
lemma fieldNotUserChannel_false {P : ParsedCommand}
    (hfc : fieldNotUserChannel P = false) :
    ∃ f, P.field = some f ∧ (f.type = .user ∨ f.type = .channel) := by
  unfold fieldNotUserChannel at hfc
  rcases hf : P.field with _ | f
  · rw [hf] at hfc; cases hfc
  · rw [hf] at hfc
    refine ⟨f, rfl, ?_⟩
    by_contra hcon
    push_neg at hcon
    simp [hcon.1, hcon.2] at hfc

/-- C6 (amended: except when the current field is a user or channel
reference, which legitimately yield zero suggestions while deferring to the
external mention autocomplete): whenever `getSuggestions` returns the empty
list the current field is a user/channel reference; and in the placeholder
case exactly one 'No matching suggestions.' suggestion is returned. -/
theorem c6_nonempty_unless_reference_field :
    (∀ (env : Env) (forms : FormsCacheMap) (pretext : String),
       getSuggestions env forms pretext = [] →
       ∃ f, (getSuggestionsParsed env forms pretext).1.field = some f ∧
         (f.type = .user ∨ f.type = .channel)) ∧
    (getSuggestions (dummyEnv [bC6e]) [] "/cmd " =
      [{ Complete := "cmd", Suggestion := "", Hint := noSuggestionHint,
         Description := "", IconData := "error" }]) := by
  constructor
  · intro env forms pretext h
    unfold getSuggestions at h
    obtain ⟨P, S, hPS⟩ :
        ∃ P S, getSuggestionsParsed env forms pretext = finishSuggestions P S :=
      ⟨_, _, rfl⟩
    rw [hPS] at h ⊢
    rw [finishSuggestions_fst]
    exact fieldNotUserChannel_false (finishSuggestions_empty P S h)
  · decide

/-- Witness for C6 (amended): the empty suggestion list for `/cmd bob` does
come from a user-reference field. -/
theorem c6_nonempty_unless_reference_field_witness :
    ∃ f, (getSuggestionsParsed (dummyEnv [bC6u]) [] "/cmd bob").1.field = some f ∧
      (f.type = .user ∨ f.type = .channel) :=
  c6_nonempty_unless_reference_field.1 (dummyEnv [bC6u]) [] "/cmd bob" (by decide)

/-! ## Claim C7: per-session form cache, memoizing success only -/

/-- Unfolding `List.lookup` one step. -/
lemma lookup_cons {α : Type} (k k1 : String) (v1 : α) (tl : List (String × α)) :
    List.lookup k ((k1, v1) :: tl) =
      if k == k1 then some v1 else List.lookup k tl := by
  rw [List.lookup]
  cases h : k == k1 <;> simp [h]

/-- Overwriting an existing key makes lookup return the new value. -/
lemma lookup_map_overwrite {α : Type} (k : String) (v : α) :
    ∀ (l : List (String × α)),
      (l.map (fun p => if p.1 = k then (k, v) else p)).lookup k =
        (l.lookup k).map (fun _ => v) := by
  intro l
  induction l with
  | nil => rfl
  | cons hd tl ih =>
    obtain ⟨k1, v1⟩ := hd
    by_cases hh : k1 = k
    · simp [lookup_cons, hh]
    · have hb : (k == k1) = false := beq_false_of_ne (Ne.symm hh)
      simp [lookup_cons, hh, hb, ih]

/-- Appending a fresh key makes lookup return its value. -/
lemma lookup_append_new {α : Type} (k : String) (v : α) :
    ∀ (l : List (String × α)), l.any (fun p => p.1 = k) = false →
      (l ++ [(k, v)]).lookup k = some v := by
  intro l
  induction l with
  | nil => intro _; simp [lookup_cons]
  | cons hd tl ih =>
    intro h
    obtain ⟨k1, v1⟩ := hd
    simp only [List.any_cons, Bool.or_eq_false_iff, decide_eq_false_iff_not] at h
    have hb : (k == k1) = false := beq_false_of_ne (Ne.symm h.1)
    simp [lookup_cons, hb, ih h.2]

/-- Key presence agrees with lookup success. -/
lemma any_key_eq_lookup_isSome {α : Type} (k : String) :
    ∀ (l : List (String × α)), l.any (fun p => p.1 = k) = (l.lookup k).isSome := by
  intro l
  induction l with
  | nil => rfl
  | cons hd tl ih =>
    obtain ⟨k1, v1⟩ := hd
    by_cases hh : k1 = k
    · simp [lookup_cons, hh]
    · have hb : (k == k1) = false := beq_false_of_ne (Ne.symm hh)
      simp [lookup_cons, hh, hb, ih]

/-- A freshly cached form is found by the next lookup. -/
lemma lookup_setCachedForm (forms : FormsCacheMap) (location : String)
    (f : AppForm) : (setCachedForm forms location f).lookup location = some f := by
  unfold setCachedForm
  split
  · rename_i hany
    rw [lookup_map_overwrite]
    rw [any_key_eq_lookup_isSome] at hany
    rcases hl : forms.lookup location with _ | g
    · rw [hl] at hany; cases hany
    · simp
  · rename_i hany
    simp only [Bool.not_eq_true] at hany
    exact lookup_append_new location f forms hany

/-- C7: `getForm` (i) returns the cached form, unchanged cache, and does not
consult the external fetch at all (its result is independent of the
environment) when the location was resolved before; (ii) on a cache miss it
returns exactly the fetch outcome, and a fetch carrying no form — an error
or an absent response — leaves the cache unchanged, so the next call
fetches again; (iii) only a successful fetch is memoized, and the memoized
form is found by the next lookup. -/
theorem c7_form_cache_memoization :
    (∀ (env env2 : Env) (forms : FormsCacheMap) (location : String)
       (binding : AppBinding) (f : AppForm),
       forms.lookup location = some f →
       getFormCached env forms location binding =
         (some { form := some f, error := none }, forms) ∧
       getFormCached env forms location binding =
         getFormCached env2 forms location binding) ∧
    (∀ (env : Env) (forms : FormsCacheMap) (location : String)
       (binding : AppBinding),
       forms.lookup location = none →
       (getFormCached env forms location binding).1 = fetchForm env binding ∧
       ((fetchForm env binding).bind FormResult.form = none →
          (getFormCached env forms location binding).2 = forms)) ∧
    (∀ (env : Env) (forms : FormsCacheMap) (location : String)
       (binding : AppBinding) (r : FormResult) (f : AppForm),
       forms.lookup location = none →
       fetchForm env binding = some r → r.form = some f →
       (getFormCached env forms location binding).2 = setCachedForm forms location f ∧
       (setCachedForm forms location f).lookup location = some f) := by
  refine ⟨?_, ?_, ?_⟩
  · intro env env2 forms location binding f h
    constructor <;> simp [getFormCached, h]
  · intro env forms location binding h
    constructor
    · rcases hf : fetchForm env binding with _ | r
      · simp [getFormCached, h, hf]
      · rcases hr : r.form with _ | g <;> simp [getFormCached, h, hf, hr]
    · intro hnone
      rcases hf : fetchForm env binding with _ | r
      · simp [getFormCached, h, hf]
      · rw [hf] at hnone
        have hrf : r.form = none := hnone
        simp [getFormCached, h, hf, hrf]
  · intro env forms location binding r f h hf hr
    refine ⟨by simp [getFormCached, h, hf, hr], lookup_setCachedForm forms location f⟩

/-- C7 fixture: an environment whose form fetch succeeds with a fixed form. -/
def formC7 : AppForm := { fields := some [], call := some ⟨"/c7"⟩ }

def bC7 : AppBinding := .mk "cmd" none none (some ⟨"/c7"⟩) "app" none none none

def envC7 : Env :=
  { dummyEnv [bC7] with
    doAppCallForm := fun _ => .data { type := .form, form := some formC7 } }

/-- Witness for C7: all three parts at concrete caches and environments. -/
theorem c7_form_cache_memoization_witness :
    (getFormCached envC7 [("/cmd", formC7)] "/cmd" bC7 =
       (some { form := some formC7, error := none }, [("/cmd", formC7)]) ∧
     getFormCached envC7 [("/cmd", formC7)] "/cmd" bC7 =
       getFormCached (dummyEnv [bC7]) [("/cmd", formC7)] "/cmd" bC7) ∧
    ((getFormCached (dummyEnv [bC7]) [] "/cmd" bC7).1 =
       fetchForm (dummyEnv [bC7]) bC7 ∧
     (getFormCached (dummyEnv [bC7]) [] "/cmd" bC7).2 = []) ∧
    ((getFormCached envC7 [] "/cmd" bC7).2 = setCachedForm [] "/cmd" formC7 ∧
     (setCachedForm [] "/cmd" formC7).lookup "/cmd" = some formC7) :=
  ⟨c7_form_cache_memoization.1 envC7 (dummyEnv [bC7]) [("/cmd", formC7)] "/cmd"
      bC7 formC7 (by decide),
   ⟨(c7_form_cache_memoization.2.1 (dummyEnv [bC7]) [] "/cmd" bC7 rfl).1,
    (c7_form_cache_memoization.2.1 (dummyEnv [bC7]) [] "/cmd" bC7 rfl).2 rfl⟩,
   c7_form_cache_memoization.2.2 envC7 [] "/cmd" bC7
      { form := some formC7, error := none } formC7 rfl rfl rfl⟩

/-! ## Claim C8: missing required fields -/

/-- C8: whenever the complete-mode parse succeeds structurally but, after
default/read-only value resolution, some required field still has no value,
`composeCallFromCommand` returns no call and an error message naming the
missing fields' labels, comma-joined. -/
theorem c8_missing_required_fields (env : Env) (forms : FormsCacheMap)
    (command : String)
    (hnoerr : (parseFormRun false (matchBindingRun (getFormFn env forms)
        env.bindings false (mkParsed command))).state ≠ .Error)
    (hmiss : getMissingFields (addDefaultAndReadOnlyValues env
        (parseFormRun false (matchBindingRun (getFormFn env forms) env.bindings
          false (mkParsed command)))) ≠ []) :
    composeCallFromCommand env forms command =
      (none, some (fieldMissingMsg (String.intercalate ", "
        ((getMissingFields (addDefaultAndReadOnlyValues env
            (parseFormRun false (matchBindingRun (getFormFn env forms)
              env.bindings false (mkParsed command))))).map
          (fun f => f.label.getD ""))))) := by
  unfold composeCallFromCommand
  dsimp only
  rw [if_neg hnoerr, if_pos hmiss]

/-- C8 fixture: a binding with one required field `project`, no value. -/
def fProjC8 : AppField :=
  { name := "project", type := .text, label := some "project",
    position := some 1, is_required := true }

def bC8 : AppBinding :=
  .mk "cmd" none (some { fields := some [fProjC8], call := some ⟨"/c8"⟩ })
    none "app" none none none

/-- Witness for C8: a form with one required field and no value supplied
yields an error message naming that field's label. -/
theorem c8_missing_required_fields_witness :
    composeCallFromCommand (dummyEnv [bC8]) [] "/cmd" =
      (none, some (fieldMissingMsg "project")) :=
  c8_missing_required_fields (dummyEnv [bC8]) [] "/cmd" (by decide) (by decide)

/-! ## Claim C9: the `isAppCommand` pre-filter -/

/-- The claim's slash-prefixed base of a binding label. -/
def slashBase (b : AppBinding) : String :=
  if b.label.data.head? = some '/' then b.label else "/" ++ b.label

/-- C9 fixture: a top-level binding with an empty label. -/
def bC9empty : AppBinding := .mk "" none none none "app" none none none

/-- C9 counterexample: over a binding whose label is empty, the pretext
`/ hello` lowercased does start with the slash-prefixed label plus a space,
yet `isAppCommand` (which skips falsy labels) returns false — the claimed
equivalence fails for that binding set. -/
theorem c9_counterexample :
    ¬((isAppCommand (dummyEnv [bC9empty]) "/ hello" = true) ↔
      ∃ b ∈ (dummyEnv [bC9empty]).bindings,
        jsStartsWith (jsToLower "/ hello") (slashBase b ++ " ") = true) := by
  intro h
  have hm : bC9empty ∈ (dummyEnv [bC9empty]).bindings :=
    List.mem_singleton.mpr rfl
  have := h.mpr ⟨bC9empty, hm, by decide⟩
  exact absurd this (by decide)

/-- C9 (amended: restricted to bindings with non-empty labels, which the
source skips): `isAppCommand` returns true exactly when the lowercased
pretext starts with some non-empty top-level binding label, slash-prefixed
if the label lacks one, followed by a space. -/
theorem c9_isAppCommand_iff (env : Env) (pretext : String) :
    isAppCommand env pretext = true ↔
      ∃ b ∈ env.bindings, b.label ≠ "" ∧
        jsStartsWith (jsToLower pretext) (slashBase b ++ " ") = true := by
  unfold isAppCommand slashBase
  rw [List.any_eq_true]
  constructor
  · rintro ⟨b, hb, hcond⟩
    dsimp only at hcond
    by_cases hl : b.label = ""
    · rw [if_pos hl] at hcond; cases hcond
    · rw [if_neg hl] at hcond
      exact ⟨b, hb, hl, hcond⟩
  · rintro ⟨b, hb, hl, hsw⟩
    refine ⟨b, hb, ?_⟩
    dsimp only
    rw [if_neg hl]
    exact hsw

/-- Witness for C9 (amended): the binding `cmd` and the pretext `/cmd hi`. -/
theorem c9_isAppCommand_iff_witness :
    isAppCommand (dummyEnv [bC2]) "/cmd hi" = true :=
  (c9_isAppCommand_iff (dummyEnv [bC2]) "/cmd hi").mpr
    ⟨bC2, List.mem_singleton.mpr rfl, by decide, by decide⟩

/-! ## Claim C10: flag-name suggestion filtering -/

/-- C10: a field contributes a flag suggestion exactly when it has a
non-empty label whose lowercase form starts with the lowercased partial
token and no truthy value is recorded for it in `parsed.values`; in
particular every suggestion in the list arises from such a field, so a
field with a (non-empty) recorded value is never suggested again. -/
theorem c10_flag_suggestion_filter :
    (∀ (p : ParsedCommand) (form : AppForm) (fields : List AppField)
       (f : AppField),
       p.form = some form → form.fields = some fields → fields ≠ [] →
       f ∈ fields →
       (∃ l, f.label = some l ∧ l ≠ "" ∧
          jsStartsWith (jsToLower l) (jsToLower p.incomplete) = true) →
       truthyVal (p.values.lookup f.name) = false →
       mkFlagSuggestion p f ∈ getFlagNameSuggestions p) ∧
    (∀ (p : ParsedCommand) (s : AutocompleteSuggestion),
       s ∈ getFlagNameSuggestions p →
       ∃ form fields f, p.form = some form ∧ form.fields = some fields ∧
         f ∈ fields ∧
         (∃ l, f.label = some l ∧ l ≠ "" ∧
            jsStartsWith (jsToLower l) (jsToLower p.incomplete) = true) ∧
         truthyVal (p.values.lookup f.name) = false ∧
         s = mkFlagSuggestion p f) := by
  constructor
  · intro p form fields f hform hfields hne hmem ⟨l, hl, hlne, hsw⟩ htr
    have happ : flagApplicable p f = true := by
      simp [flagApplicable, hl, hlne, hsw, htr]
    unfold getFlagNameSuggestions
    rw [hform]
    dsimp only
    rw [hfields]
    cases fields with
    | nil => exact absurd rfl hne
    | cons a tl =>
      dsimp only
      exact List.mem_map.mpr ⟨f, List.mem_filter.mpr ⟨hmem, happ⟩, rfl⟩
  · intro p s hs
    unfold getFlagNameSuggestions at hs
    rcases hform : p.form with _ | form
    · rw [hform] at hs; cases hs
    · rw [hform] at hs
      dsimp only at hs
      rcases hfields : form.fields with _ | fields
      · rw [hfields] at hs; cases hs
      · rw [hfields] at hs
        cases fields with
        | nil => cases hs
        | cons a tl =>
          dsimp only at hs
          obtain ⟨f, hf, heq⟩ := List.mem_map.mp hs
          obtain ⟨hmem, happ⟩ := List.mem_filter.mp hf
          refine ⟨form, a :: tl, f, rfl, hfields, hmem, ?_, ?_, heq.symm⟩
          · rcases hl : f.label with _ | l
            · rw [flagApplicable, hl] at happ; cases happ
            · rw [flagApplicable, hl] at happ
              simp only [decide_eq_true_eq] at happ
              exact ⟨l, rfl, happ.1, happ.2.1⟩
          · rcases hl : f.label with _ | l
            · rw [flagApplicable, hl] at happ; cases happ
            · rw [flagApplicable, hl] at happ
              simp only [decide_eq_true_eq] at happ
              simpa using happ.2.2

/-- C10 fixture: parse state after `/cmd --done true --`, where `done`
already holds a value and `user` does not. -/
def fDoneC10 : AppField := { name := "done", type := .bool, label := some "done" }

def fUserC10 : AppField := { name := "user", type := .user, label := some "user" }

def formC10 : AppForm := { fields := some [fDoneC10, fUserC10] }

def pC10 : ParsedCommand :=
  { command := "/cmd --done true --".data, state := .Flag, incomplete := "",
    incompleteStart := 19, form := some formC10,
    values := [("done", .str "true")] }

/-- Witness for C10: the still-unset `user` flag is suggested for `pC10`. -/
theorem c10_flag_suggestion_filter_witness :
    mkFlagSuggestion pC10 fUserC10 ∈ getFlagNameSuggestions pC10 :=
  c10_flag_suggestion_filter.1 pC10 formC10 [fDoneC10, fUserC10] fUserC10
    rfl rfl (by decide) (by decide) ⟨"user", rfl, by decide, by decide⟩ (by decide)

end AppCmd
